import Mathlib

/-
  Verification of the rondo-mundi lottery backend (src/backend/src/main.rs).

  The Rust service keeps an in-memory registry of lotteries behind a mutex;
  every handler acquires the lock, so each operation is atomic.  We embed the
  registry as a map from lottery id to Lottery and each handler as a pure
  function from the registry (plus the request data and, for the draw, the
  32-bit random value produced by the OS generator) to a result together with
  the updated registry.  Machine integers are modelled as Nat with explicit
  reduction modulo 2 to the 32 or 64 where the Rust code performs u32 or u64
  arithmetic (release-mode wrapping semantics).  Identifier and timestamp
  generation are opaque inputs, as the specification excludes them.
-/

/-- 2 to the 32: the size of the u32 value space. -/
def U32 : Nat := 4294967296

/-- 2 to the 64: the size of the u64 value space. -/
def U64 : Nat := 18446744073709551616

/-- Mirrors struct Participant: wallet_address: String, tickets_bought: u32. -/
structure Participant where
  wallet_address : String
  tickets_bought : Nat
deriving DecidableEq

/-- Mirrors struct Lottery in main.rs. -/
structure Lottery where
  id : String
  admin : String
  ticket_price : Nat
  participants : List Participant
  is_active : Bool
  prize_pool : Nat
  winner : Option String
  created_at : String
  end_time : Option String
deriving DecidableEq

/-- The distinct error return sites of the handlers, one constructor per
    branch.  validationError carries the BadRequest message string of the
    corresponding early return in buy_ticket; the remaining constructors
    correspond to the NotFound, Forbidden and BadRequest returns of
    buy_ticket and pick_winner. -/
inductive ApiError where
  | validationError : String → ApiError
  | notFound : ApiError
  | forbidden : ApiError
  | inactiveLottery : ApiError
  | noParticipants : ApiError
  | noTicketsSold : ApiError
deriving DecidableEq

/-- The HashMap String Lottery behind the mutex, as a function map. -/
abbrev Registry := String → Option Lottery

/-- The initial empty registry (HashMap::new()). -/
def Registry.emptyReg : Registry := fun _ => none

/-- HashMap::insert / in-place update through get_mut. -/
def Registry.insert (st : Registry) (k : String) (v : Lottery) : Registry :=
  fun k2 => if k2 = k then some v else st k2

/-- create_lottery handler: builds a fresh Lottery (empty participants,
    active, zero pool, no winner) and inserts it.  The generated UUID and the
    timestamp are opaque inputs. -/
def create_lottery (st : Registry) (lottery_id admin : String) (ticket_price : Nat)
    (created_at : String) (end_time : Option String) : Lottery × Registry :=
  let lottery : Lottery :=
    { id := lottery_id
      admin := admin
      ticket_price := ticket_price
      participants := []
      is_active := true
      prize_pool := 0
      winner := none
      created_at := created_at
      end_time := end_time }
  (lottery, Registry.insert st lottery_id lottery)

/-- The participant update of buy_ticket: find the first entry with the given
    wallet and add the tickets to it (u32 wrapping addition), otherwise push a
    new entry at the end of the list. -/
def addTicketsToParticipants (ps : List Participant) (wallet : String) (tickets : Nat) :
    List Participant :=
  match ps with
  | [] => [{ wallet_address := wallet, tickets_bought := tickets }]
  | p :: rest =>
    if p.wallet_address = wallet then
      { p with tickets_bought := (p.tickets_bought + tickets) % U32 } :: rest
    else
      p :: addTicketsToParticipants rest wallet tickets

/-- buy_ticket handler.  Validation checks come first, in source order; the
    prize pool update uses u64 wrapping arithmetic, the ticket accumulation
    u32 wrapping arithmetic.  Error returns leave the registry unchanged, as
    every error return in the source precedes the mutations. -/
def buy_ticket (st : Registry) (lottery_id wallet : String) (tickets : Nat) :
    Except ApiError Lottery × Registry :=
  if tickets = 0 then
    (.error (.validationError "Must buy at least 1 ticket"), st)
  else if tickets > 10000 then
    (.error (.validationError "Cannot buy more than 10,000 tickets at once"), st)
  else if wallet = "" then
    (.error (.validationError "Wallet address is required"), st)
  else
    match st lottery_id with
    | none => (.error .notFound, st)
    | some lottery =>
      if lottery.is_active = false then
        (.error .inactiveLottery, st)
      else
        let total_cost := lottery.ticket_price * tickets % U64
        let lottery2 :=
          { lottery with
            prize_pool := (lottery.prize_pool + total_cost) % U64
            participants := addTicketsToParticipants lottery.participants wallet tickets }
        (.ok lottery2, Registry.insert st lottery_id lottery2)

/-- The u32 sum of tickets_bought over the participants
    (iter().map(tickets_bought).sum() with wrapping additions). -/
def totalTickets (ps : List Participant) : Nat :=
  ps.foldl (fun acc p => (acc + p.tickets_bought) % U32) 0

/-- The winning ticket number: (next_u32() % total_tickets) + 1, where x is
    the raw generator output (reduced into the u32 value space). -/
def winningTicketNumber (x total : Nat) : Nat :=
  (x % U32) % total + 1

/-- The selection loop of pick_winner: running cumulative u32 ticket count,
    first participant with winning number at most the cumulative count wins
    (the loop breaks); none if the loop falls through. -/
def selectWinnerAux (r : Nat) : List Participant → Nat → Option String
  | [], _ => none
  | p :: rest, current_ticket =>
    let c2 := (current_ticket + p.tickets_bought) % U32
    if r ≤ c2 then some p.wallet_address else selectWinnerAux r rest c2

/-- pick_winner handler, checks in source order: lookup, admin, is_active,
    empty participants, zero total; then the random draw and the selection
    loop; winner is assigned only when the loop hit, and is_active is set to
    false. -/
def pick_winner (st : Registry) (lottery_id requestingAdmin : String) (x : Nat) :
    Except ApiError Lottery × Registry :=
  match st lottery_id with
  | none => (.error .notFound, st)
  | some lottery =>
    if lottery.admin ≠ requestingAdmin then
      (.error .forbidden, st)
    else if lottery.is_active = false then
      (.error .inactiveLottery, st)
    else if lottery.participants.isEmpty then
      (.error .noParticipants, st)
    else
      let total_tickets := totalTickets lottery.participants
      if total_tickets = 0 then
        (.error .noTicketsSold, st)
      else
        let r := winningTicketNumber x total_tickets
        let w := selectWinnerAux r lottery.participants 0
        let lottery2 :=
          { lottery with
            winner := match w with | some a => some a | none => lottery.winner
            is_active := false }
        (.ok lottery2, Registry.insert st lottery_id lottery2)

/-- Exact (unbounded) sum of tickets_bought, used to state the claims. -/
def ticketSum (ps : List Participant) : Nat :=
  (ps.map (fun p => p.tickets_bought)).sum

/-- The registries reachable from the empty registry by any sequence of the
    three mutating operations (failed operations return the registry
    unchanged, so they are covered as well). -/
inductive Reachable : Registry → Prop where
  | emptyReg : Reachable Registry.emptyReg
  | create (st : Registry) (id admin : String) (price : Nat) (ca : String)
      (et : Option String) : Reachable st →
      Reachable (create_lottery st id admin price ca et).2
  | buy (st : Registry) (id w : String) (t : Nat) : Reachable st →
      Reachable (buy_ticket st id w t).2
  | draw (st : Registry) (id a : String) (x : Nat) : Reachable st →
      Reachable (pick_winner st id a x).2

/-- Spec-side selection, following the specification's words for comparison
    with selectWinnerAux: walk the list with an exact running cumulative
    ticket count; the first participant whose cumulative count is at least r
    is the winner.  Returns the absolute index together with the participant. -/
def specCumulativeSelect (r : Nat) : List Participant → Nat → Nat → Option (Nat × Participant)
  | [], _, _ => none
  | p :: rest, acc, idx =>
    if r ≤ acc + p.tickets_bought then some (idx, p)
    else specCumulativeSelect r rest (acc + p.tickets_bought) (idx + 1)

/-- Number of 32-bit generator outputs mapped to the winning ticket number r
    by the selection step, for a given total. -/
def preimageCount (total r : Nat) : Nat :=
  ((Finset.range U32).filter (fun x => winningTicketNumber x total = r)).card

/-- Number of x below N with x % t = c. -/
def countMod (N t c : Nat) : Nat :=
  ((Finset.range N).filter (fun x => x % t = c)).card

/-- A purchase request is within arithmetic range on a registry when it
    cannot overflow the u64 prize pool of the addressed lottery nor the u32
    ticket counter of the purchasing wallet. -/
def buyInRange (st : Registry) (idv w : String) (t : Nat) : Prop :=
  ∀ l, st idv = some l →
    l.prize_pool + l.ticket_price * t < U64 ∧
    ∀ p ∈ l.participants, p.wallet_address = w → p.tickets_bought + t < U32

/-- Registries reachable from the empty registry by operation sequences in
    which every purchase keeps the arithmetic in range. -/
inductive ReachableNoOv : Registry → Prop where
  | emptyReg : ReachableNoOv Registry.emptyReg
  | create (st : Registry) (idv admin : String) (price : Nat) (ca : String)
      (et : Option String) : ReachableNoOv st →
      ReachableNoOv (create_lottery st idv admin price ca et).2
  | buy (st : Registry) (idv w : String) (t : Nat) : ReachableNoOv st →
      buyInRange st idv w t → ReachableNoOv (buy_ticket st idv w t).2
  | draw (st : Registry) (idv a : String) (x : Nat) : ReachableNoOv st →
      ReachableNoOv (pick_winner st idv a x).2

/-- Exact cumulative ticket count over the first k participants. -/
def cumTickets (ps : List Participant) (k : Nat) : Nat :=
  ticketSum (ps.take k)

/-- Concrete states used by witness and counterexample theorems: a lottery
    priced 2 to the 63 (for the overflow traces). -/
def ovL1 : Lottery :=
  { id := "L1", admin := "alice", ticket_price := 9223372036854775808,
    participants := [], is_active := true, prize_pool := 0, winner := none,
    created_at := "t0", end_time := none }

def ovSt1 : Registry :=
  (create_lottery Registry.emptyReg "L1" "alice" 9223372036854775808 "t0" none).2

def ovL2 : Lottery :=
  { ovL1 with
    participants := [{ wallet_address := "w", tickets_bought := 2 }] }

/-- A small lottery priced 10 with one buyer (bob, 5 tickets) and its draw. -/
def wL1 : Lottery :=
  { id := "L1", admin := "alice", ticket_price := 10, participants := [],
    is_active := true, prize_pool := 0, winner := none, created_at := "t0",
    end_time := none }

def wSt1 : Registry := (create_lottery Registry.emptyReg "L1" "alice" 10 "t0" none).2

def wL2 : Lottery :=
  { wL1 with
    prize_pool := 50
    participants := [{ wallet_address := "bob", tickets_bought := 5 }] }

def wSt2 : Registry := (buy_ticket wSt1 "L1" "bob" 5).2

def wL3 : Lottery := { wL2 with winner := some "bob", is_active := false }

def wSt3 : Registry := (pick_winner wSt2 "L1" "alice" 0).2

/-- A participant list whose u32 cumulative count wraps in the middle. -/
def bigPs : List Participant :=
  [{ wallet_address := "a", tickets_bought := 1 },
   { wallet_address := "b", tickets_bought := 4294967295 },
   { wallet_address := "c", tickets_bought := 3 }]

def wPs : List Participant :=
  [{ wallet_address := "a", tickets_bought := 2 },
   { wallet_address := "b", tickets_bought := 1 }]

/-- A lottery whose exact ticket total is 2 to the 32, so the u32 total
    computed by pick_winner wraps to zero. -/
def wrapL : Lottery :=
  { id := "L1", admin := "alice", ticket_price := 0,
    participants := [{ wallet_address := "w1", tickets_bought := 2147483648 },
                     { wallet_address := "w2", tickets_bought := 2147483648 }],
    is_active := true, prize_pool := 0, winner := none, created_at := "t0",
    end_time := none }

def wrapSt : Registry := Registry.insert Registry.emptyReg "L1" wrapL


/-- The family of lotteries (fixed id, admin, zero price) reached while
    accumulating large ticket counts; the price is zero so the prize pool
    stays zero along the whole trace. -/
def famL (ps : List Participant) : Lottery :=
  { id := "L1", admin := "alice", ticket_price := 0, participants := ps,
    is_active := true, prize_pool := 0, winner := none, created_at := "t0",
    end_time := none }

def wfSt0 : Registry := (create_lottery Registry.emptyReg "L1" "alice" 0 "t0" none).2

lemma countMod_succ (N t c : Nat) :
    countMod (N + 1) t c = countMod N t c + if N % t = c then 1 else 0 := by
  unfold countMod
  rw [Finset.range_succ, Finset.filter_insert]
  by_cases h : N % t = c
  · rw [if_pos h, if_pos h, Finset.card_insert_of_not_mem (by simp)]
  · rw [if_neg h, if_neg h, Nat.add_zero]

lemma countMod_eq (t c : Nat) (ht : 2 ≤ t) (hc : c < t) :
    ∀ N, countMod N t c = N / t + if c < N % t then 1 else 0 := by
  intro N
  induction N with
  | zero => simp [countMod]
  | succ n ih =>
    rw [countMod_succ, ih]
    have hm : n % t < t := Nat.mod_lt _ (by omega)
    have h1 : (n + 1) % t = (n % t + 1) % t := by
      conv_lhs => rw [Nat.add_mod, Nat.mod_eq_of_lt (show 1 < t by omega)]
    rcases Nat.lt_or_ge (n % t + 1) t with h | h
    · have h2 : (n + 1) % t = n % t + 1 := by rw [h1, Nat.mod_eq_of_lt h]
      have hnd : ¬ t ∣ (n + 1) := by
        rw [Nat.dvd_iff_mod_eq_zero]
        omega
      have h3 : (n + 1) / t = n / t := by
        rw [Nat.succ_div, if_neg hnd, Nat.add_zero]
      rw [h2, h3]
      split_ifs <;> omega
    · have heq : n % t + 1 = t := by omega
      have h2 : (n + 1) % t = 0 := by rw [h1, heq, Nat.mod_self]
      have hd : t ∣ (n + 1) := by
        rw [Nat.dvd_iff_mod_eq_zero]
        exact h2
      have h3 : (n + 1) / t = n / t + 1 := by
        rw [Nat.succ_div, if_pos hd]
      rw [h2, h3]
      split_ifs <;> omega

lemma preimageCount_three (r : Nat) (h1 : 1 ≤ r) : preimageCount 3 r = countMod U32 3 (r - 1) := by
  unfold preimageCount countMod
  refine congrArg Finset.card ?_
  ext x
  simp only [Finset.mem_filter, Finset.mem_range]
  unfold winningTicketNumber
  constructor
  · rintro ⟨hx, hw⟩
    rw [Nat.mod_eq_of_lt hx] at hw
    exact ⟨hx, by omega⟩
  · rintro ⟨hx, hw⟩
    refine ⟨hx, ?_⟩
    rw [Nat.mod_eq_of_lt hx]
    omega

lemma selectWinnerAux_isSome (ps : List Participant) :
    ∀ acc r, acc < r →
      r ≤ ps.foldl (fun a p => (a + p.tickets_bought) % U32) acc →
      ∃ w, selectWinnerAux r ps acc = some w := by
  induction ps with
  | nil =>
    intro acc r h1 h2
    simp only [List.foldl_nil] at h2
    omega
  | cons p rest ih =>
    intro acc r h1 h2
    simp only [List.foldl_cons] at h2
    unfold selectWinnerAux
    by_cases hr : r ≤ (acc + p.tickets_bought) % U32
    · exact ⟨p.wallet_address, by rw [if_pos hr]⟩
    · rw [if_neg hr]
      exact ih _ r (by omega) h2

lemma selectWinnerAux_mem (ps : List Participant) :
    ∀ acc r w, selectWinnerAux r ps acc = some w →
      ∃ p, p ∈ ps ∧ p.wallet_address = w := by
  induction ps with
  | nil => intro acc r w h; exact absurd h (by simp [selectWinnerAux])
  | cons p rest ih =>
    intro acc r w h
    unfold selectWinnerAux at h
    by_cases hr : r ≤ (acc + p.tickets_bought) % U32
    · rw [if_pos hr] at h
      exact ⟨p, List.mem_cons_self p rest, Option.some.inj h⟩
    · rw [if_neg hr] at h
      obtain ⟨q, hq, hqw⟩ := ih _ r w h
      exact ⟨q, List.mem_cons_of_mem p hq, hqw⟩

lemma buy_ok_elim (st : Registry) (id w : String) (t : Nat) (l' : Lottery)
    (h : (buy_ticket st id w t).1 = .ok l') :
    t ≠ 0 ∧ t ≤ 10000 ∧ w ≠ "" ∧
    ∃ lottery, st id = some lottery ∧ lottery.is_active = true ∧
      l' = { lottery with
             prize_pool := (lottery.prize_pool + lottery.ticket_price * t % U64) % U64,
             participants := addTicketsToParticipants lottery.participants w t } ∧
      (buy_ticket st id w t).2 = Registry.insert st id l' := by
  unfold buy_ticket at h ⊢
  by_cases h1 : t = 0
  · rw [if_pos h1] at h; exact absurd h (by simp)
  rw [if_neg h1] at h ⊢
  by_cases h2 : t > 10000
  · rw [if_pos h2] at h; exact absurd h (by simp)
  rw [if_neg h2] at h ⊢
  by_cases h3 : w = ""
  · rw [if_pos h3] at h; exact absurd h (by simp)
  rw [if_neg h3] at h ⊢
  cases hst : st id with
  | none => rw [hst] at h; simp at h
  | some lottery =>
    rw [hst] at h
    simp only [] at h ⊢
    by_cases h4 : lottery.is_active = false
    · rw [if_pos h4] at h; exact absurd h (by simp)
    rw [if_neg h4] at h ⊢
    have h5 : Except.ok (ε := ApiError)
        { lottery with
          prize_pool := (lottery.prize_pool + lottery.ticket_price * t % U64) % U64,
          participants := addTicketsToParticipants lottery.participants w t } = .ok l' := h
    have h6 := (Except.ok.inj h5).symm
    refine ⟨h1, by omega, h3, lottery, rfl, by revert h4; cases lottery.is_active <;> simp,
      h6, ?_⟩
    rw [h6]

lemma buy_err_frame (st : Registry) (id w : String) (t : Nat) (e : ApiError)
    (h : (buy_ticket st id w t).1 = .error e) :
    (buy_ticket st id w t).2 = st := by
  unfold buy_ticket at h ⊢
  by_cases h1 : t = 0
  · rw [if_pos h1]
  rw [if_neg h1] at h ⊢
  by_cases h2 : t > 10000
  · rw [if_pos h2]
  rw [if_neg h2] at h ⊢
  by_cases h3 : w = ""
  · rw [if_pos h3]
  rw [if_neg h3] at h ⊢
  cases hst : st id with
  | none => rfl
  | some lottery =>
    rw [hst] at h
    simp only [] at h ⊢
    by_cases h4 : lottery.is_active = false
    · rw [if_pos h4]
    rw [if_neg h4] at h
    exact absurd h (by simp)

lemma draw_ok_elim (st : Registry) (id a : String) (x : Nat) (l' : Lottery)
    (h : (pick_winner st id a x).1 = .ok l') :
    ∃ lottery w, st id = some lottery ∧ lottery.admin = a ∧ lottery.is_active = true ∧
      lottery.participants ≠ [] ∧ totalTickets lottery.participants ≠ 0 ∧
      selectWinnerAux (winningTicketNumber x (totalTickets lottery.participants))
        lottery.participants 0 = some w ∧
      l' = { lottery with winner := some w, is_active := false } ∧
      (pick_winner st id a x).2 = Registry.insert st id l' := by
  unfold pick_winner at h ⊢
  cases hst : st id with
  | none => rw [hst] at h; simp at h
  | some lottery =>
    rw [hst] at h
    simp only [] at h ⊢
    by_cases h1 : lottery.admin ≠ a
    · rw [if_pos h1] at h; exact absurd h (by simp)
    rw [if_neg h1] at h ⊢
    by_cases h2 : lottery.is_active = false
    · rw [if_pos h2] at h; exact absurd h (by simp)
    rw [if_neg h2] at h ⊢
    by_cases h3 : lottery.participants.isEmpty
    · rw [if_pos h3] at h; exact absurd h (by simp)
    rw [if_neg h3] at h ⊢
    by_cases h4 : totalTickets lottery.participants = 0
    · rw [if_pos h4] at h; exact absurd h (by simp)
    rw [if_neg h4] at h ⊢
    obtain ⟨w, hw⟩ := selectWinnerAux_isSome lottery.participants 0
      (winningTicketNumber x (totalTickets lottery.participants))
      (by unfold winningTicketNumber; omega)
      (by
        unfold winningTicketNumber totalTickets
        have := Nat.mod_lt (x % U32) (show 0 < totalTickets lottery.participants by omega)
        unfold totalTickets at this
        omega)
    rw [hw] at h ⊢
    have h5 : Except.ok (ε := ApiError)
        { lottery with winner := some w, is_active := false } = .ok l' := h
    have h6 := (Except.ok.inj h5).symm
    refine ⟨lottery, w, rfl, not_not.mp h1, by revert h2; cases lottery.is_active <;> simp,
      by revert h3; cases lottery.participants <;> simp, h4, hw, h6, ?_⟩
    rw [h6]

lemma draw_err_frame (st : Registry) (id a : String) (x : Nat) (e : ApiError)
    (h : (pick_winner st id a x).1 = .error e) :
    (pick_winner st id a x).2 = st := by
  unfold pick_winner at h ⊢
  cases hst : st id with
  | none => rfl
  | some lottery =>
    rw [hst] at h
    simp only [] at h ⊢
    by_cases h1 : lottery.admin ≠ a
    · rw [if_pos h1]
    rw [if_neg h1] at h ⊢
    by_cases h2 : lottery.is_active = false
    · rw [if_pos h2]
    rw [if_neg h2] at h ⊢
    by_cases h3 : lottery.participants.isEmpty
    · rw [if_pos h3]
    rw [if_neg h3] at h ⊢
    by_cases h4 : totalTickets lottery.participants = 0
    · rw [if_pos h4]
    rw [if_neg h4] at h
    cases hw : selectWinnerAux (winningTicketNumber x (totalTickets lottery.participants))
        lottery.participants 0 with
    | none => rw [hw] at h; exact absurd h (by simp)
    | some w => rw [hw] at h; exact absurd h (by simp)

lemma foldl_mod_eq (ps : List Participant) :
    ∀ acc, acc < U32 →
      ps.foldl (fun a p => (a + p.tickets_bought) % U32) acc = (acc + ticketSum ps) % U32 := by
  induction ps with
  | nil =>
    intro acc h
    simp only [List.foldl_nil, ticketSum, List.map_nil, List.sum_nil, Nat.add_zero]
    exact (Nat.mod_eq_of_lt h).symm
  | cons p rest ih =>
    intro acc h
    simp only [List.foldl_cons]
    rw [ih _ (Nat.mod_lt _ (by unfold U32; omega))]
    unfold ticketSum
    simp only [List.map_cons, List.sum_cons]
    unfold U32
    omega

lemma totalTickets_eq (ps : List Participant) : totalTickets ps = ticketSum ps % U32 := by
  unfold totalTickets
  rw [foldl_mod_eq ps 0 (by unfold U32; omega), Nat.zero_add]

lemma ticketSum_addTickets (ps : List Participant) (w : String) (t : Nat) :
    (∀ p ∈ ps, p.wallet_address = w → p.tickets_bought + t < U32) →
      ticketSum (addTicketsToParticipants ps w t) = ticketSum ps + t := by
  induction ps with
  | nil =>
    intro _
    simp [addTicketsToParticipants, ticketSum]
  | cons p rest ih =>
    intro hb
    unfold addTicketsToParticipants
    by_cases hw : p.wallet_address = w
    · rw [if_pos hw]
      unfold ticketSum
      simp only [List.map_cons, List.sum_cons]
      rw [Nat.mod_eq_of_lt (hb p (List.mem_cons_self p rest) hw)]
      omega
    · rw [if_neg hw]
      unfold ticketSum at ih ⊢
      simp only [List.map_cons, List.sum_cons]
      rw [ih (fun q hq hqw => hb q (List.mem_cons_of_mem p hq) hqw)]
      omega

lemma addTickets_append (ps : List Participant) (w : String) (t : Nat)
    (h : ∀ p ∈ ps, p.wallet_address ≠ w) :
    addTicketsToParticipants ps w t = ps ++ [{ wallet_address := w, tickets_bought := t }] := by
  induction ps with
  | nil => rfl
  | cons p rest ih =>
    unfold addTicketsToParticipants
    rw [if_neg (h p (List.mem_cons_self p rest))]
    rw [ih (fun q hq => h q (List.mem_cons_of_mem p hq))]
    rfl

lemma map_update_id (ps : List Participant) (w : String) (t : Nat)
    (h : ∀ p ∈ ps, p.wallet_address ≠ w) :
    ps.map (fun p => if p.wallet_address = w then
        { p with tickets_bought := (p.tickets_bought + t) % U32 } else p) = ps := by
  induction ps with
  | nil => rfl
  | cons p rest ih =>
    simp only [List.map_cons]
    rw [if_neg (h p (List.mem_cons_self p rest)), ih (fun q hq => h q (List.mem_cons_of_mem p hq))]

lemma addTickets_map (ps : List Participant) (w : String) (t : Nat)
    (hnd : (ps.map (fun p => p.wallet_address)).Nodup)
    (h : ∃ p ∈ ps, p.wallet_address = w) :
    addTicketsToParticipants ps w t = ps.map (fun p => if p.wallet_address = w then
        { p with tickets_bought := (p.tickets_bought + t) % U32 } else p) := by
  induction ps with
  | nil => exact absurd h (by simp)
  | cons p rest ih =>
    simp only [List.map_cons, List.nodup_cons] at hnd
    unfold addTicketsToParticipants
    simp only [List.map_cons]
    by_cases hw : p.wallet_address = w
    · rw [if_pos hw, if_pos hw]
      have hrest : ∀ q ∈ rest, q.wallet_address ≠ w := by
        intro q hq hqw
        exact hnd.1 (by
          rw [hw]
          rw [← hqw]
          exact List.mem_map_of_mem (fun p => p.wallet_address) hq)
      rw [map_update_id rest w t hrest]
    · rw [if_neg hw, if_neg hw]
      obtain ⟨q, hq, hqw⟩ := h
      rcases List.mem_cons.mp hq with rfl | hq2
      · exact absurd hqw hw
      · rw [ih hnd.2 ⟨q, hq2, hqw⟩]

lemma addTickets_wallet_mem (ps : List Participant) (w : String) (t : Nat) (x : String) :
    x ∈ (addTicketsToParticipants ps w t).map (fun p => p.wallet_address) →
      x ∈ ps.map (fun p => p.wallet_address) ∨ x = w := by
  induction ps with
  | nil =>
    intro h
    simp [addTicketsToParticipants] at h
    exact Or.inr h
  | cons p rest ih =>
    intro h
    unfold addTicketsToParticipants at h
    by_cases hw : p.wallet_address = w
    · rw [if_pos hw] at h
      simp only [List.map_cons, List.mem_cons] at h ⊢
      tauto
    · rw [if_neg hw] at h
      simp only [List.map_cons, List.mem_cons] at h ⊢
      rcases h with h | h
      · exact Or.inl (Or.inl h)
      · rcases ih h with h2 | h2
        · exact Or.inl (Or.inr h2)
        · exact Or.inr h2

lemma addTickets_nodup (ps : List Participant) (w : String) (t : Nat)
    (hnd : (ps.map (fun p => p.wallet_address)).Nodup) :
    ((addTicketsToParticipants ps w t).map (fun p => p.wallet_address)).Nodup := by
  induction ps with
  | nil => simp [addTicketsToParticipants]
  | cons p rest ih =>
    simp only [List.map_cons, List.nodup_cons] at hnd
    unfold addTicketsToParticipants
    by_cases hw : p.wallet_address = w
    · rw [if_pos hw]
      simp only [List.map_cons, List.nodup_cons]
      exact ⟨hnd.1, hnd.2⟩
    · rw [if_neg hw]
      simp only [List.map_cons, List.nodup_cons]
      refine ⟨?_, ih hnd.2⟩
      intro hmem
      rcases addTickets_wallet_mem rest w t p.wallet_address hmem with h2 | h2
      · exact hnd.1 h2
      · exact hw h2

lemma reachable_winner_iff (st : Registry) (h : Reachable st) :
    ∀ idv l, st idv = some l → (l.winner.isSome = true ↔ l.is_active = false) := by
  induction h with
  | emptyReg =>
    intro idv l hl
    exact absurd hl (by simp [Registry.emptyReg])
  | create st0 cid cadmin cprice cca cet _ ih =>
    intro idv l hl
    unfold create_lottery Registry.insert at hl
    simp only [] at hl
    by_cases he : idv = cid
    · rw [if_pos he] at hl
      have := Option.some.inj hl
      subst this
      simp
    · rw [if_neg he] at hl
      exact ih idv l hl
  | buy st0 bid bw bt _ ih =>
    intro idv l hl
    cases hr : (buy_ticket st0 bid bw bt).1 with
    | error e =>
      rw [buy_err_frame st0 bid bw bt e hr] at hl
      exact ih idv l hl
    | ok l2 =>
      obtain ⟨_, _, _, lottery, hst, hact, hl2, hsnd⟩ := buy_ok_elim st0 bid bw bt l2 hr
      rw [hsnd] at hl
      unfold Registry.insert at hl
      by_cases he : idv = bid
      · rw [if_pos he] at hl
        have := Option.some.inj hl
        subst this
        subst hl2
        exact ih bid lottery hst
      · rw [if_neg he] at hl
        exact ih idv l hl
  | draw st0 did da dx _ ih =>
    intro idv l hl
    cases hr : (pick_winner st0 did da dx).1 with
    | error e =>
      rw [draw_err_frame st0 did da dx e hr] at hl
      exact ih idv l hl
    | ok l2 =>
      obtain ⟨lottery, w, hst, hadm, hact, hne, htot, hsel, hl2, hsnd⟩ :=
        draw_ok_elim st0 did da dx l2 hr
      rw [hsnd] at hl
      unfold Registry.insert at hl
      by_cases he : idv = did
      · rw [if_pos he] at hl
        have := Option.some.inj hl
        subst this
        subst hl2
        simp
      · rw [if_neg he] at hl
        exact ih idv l hl

lemma reachable_wallets_nodup (st : Registry) (h : Reachable st) :
    ∀ idv l, st idv = some l → (l.participants.map (fun p => p.wallet_address)).Nodup := by
  induction h with
  | emptyReg =>
    intro idv l hl
    exact absurd hl (by simp [Registry.emptyReg])
  | create st0 cid cadmin cprice cca cet _ ih =>
    intro idv l hl
    unfold create_lottery Registry.insert at hl
    simp only [] at hl
    by_cases he : idv = cid
    · rw [if_pos he] at hl
      have := Option.some.inj hl
      subst this
      simp
    · rw [if_neg he] at hl
      exact ih idv l hl
  | buy st0 bid bw bt _ ih =>
    intro idv l hl
    cases hr : (buy_ticket st0 bid bw bt).1 with
    | error e =>
      rw [buy_err_frame st0 bid bw bt e hr] at hl
      exact ih idv l hl
    | ok l2 =>
      obtain ⟨_, _, _, lottery, hst, hact, hl2, hsnd⟩ := buy_ok_elim st0 bid bw bt l2 hr
      rw [hsnd] at hl
      unfold Registry.insert at hl
      by_cases he : idv = bid
      · rw [if_pos he] at hl
        have := Option.some.inj hl
        subst this
        subst hl2
        exact addTickets_nodup lottery.participants bw bt (ih bid lottery hst)
      · rw [if_neg he] at hl
        exact ih idv l hl
  | draw st0 did da dx _ ih =>
    intro idv l hl
    cases hr : (pick_winner st0 did da dx).1 with
    | error e =>
      rw [draw_err_frame st0 did da dx e hr] at hl
      exact ih idv l hl
    | ok l2 =>
      obtain ⟨lottery, w, hst, hadm, hact, hne, htot, hsel, hl2, hsnd⟩ :=
        draw_ok_elim st0 did da dx l2 hr
      rw [hsnd] at hl
      unfold Registry.insert at hl
      by_cases he : idv = did
      · rw [if_pos he] at hl
        have := Option.some.inj hl
        subst this
        subst hl2
        exact ih did lottery hst
      · rw [if_neg he] at hl
        exact ih idv l hl

lemma reachableNoOv_pool (st : Registry) (h : ReachableNoOv st) :
    ∀ idv l, st idv = some l →
      l.prize_pool = l.ticket_price * ticketSum l.participants := by
  induction h with
  | emptyReg =>
    intro idv l hl
    exact absurd hl (by simp [Registry.emptyReg])
  | create st0 cid cadmin cprice cca cet _ ih =>
    intro idv l hl
    unfold create_lottery Registry.insert at hl
    simp only [] at hl
    by_cases he : idv = cid
    · rw [if_pos he] at hl
      have := Option.some.inj hl
      subst this
      simp [ticketSum]
    · rw [if_neg he] at hl
      exact ih idv l hl
  | buy st0 bid bw bt _ hin ih =>
    intro idv l hl
    cases hr : (buy_ticket st0 bid bw bt).1 with
    | error e =>
      rw [buy_err_frame st0 bid bw bt e hr] at hl
      exact ih idv l hl
    | ok l2 =>
      obtain ⟨_, _, _, lottery, hst, hact, hl2, hsnd⟩ := buy_ok_elim st0 bid bw bt l2 hr
      rw [hsnd] at hl
      unfold Registry.insert at hl
      by_cases he : idv = bid
      · rw [if_pos he] at hl
        have := Option.some.inj hl
        subst this
        subst hl2
        obtain ⟨hb1, hb2⟩ := hin lottery hst
        have hcost : lottery.ticket_price * bt % U64 = lottery.ticket_price * bt :=
          Nat.mod_eq_of_lt (by omega)
        simp only [hcost]
        rw [Nat.mod_eq_of_lt hb1, ticketSum_addTickets lottery.participants bw bt hb2,
          Nat.mul_add, ih bid lottery hst]
      · rw [if_neg he] at hl
        exact ih idv l hl
  | draw st0 did da dx _ ih =>
    intro idv l hl
    cases hr : (pick_winner st0 did da dx).1 with
    | error e =>
      rw [draw_err_frame st0 did da dx e hr] at hl
      exact ih idv l hl
    | ok l2 =>
      obtain ⟨lottery, w, hst, hadm, hact, hne, htot, hsel, hl2, hsnd⟩ :=
        draw_ok_elim st0 did da dx l2 hr
      rw [hsnd] at hl
      unfold Registry.insert at hl
      by_cases he : idv = did
      · rw [if_pos he] at hl
        have := Option.some.inj hl
        subst this
        subst hl2
        exact ih did lottery hst
      · rw [if_neg he] at hl
        exact ih idv l hl

lemma ticketSum_append (l1 l2 : List Participant) :
    ticketSum (l1 ++ l2) = ticketSum l1 + ticketSum l2 := by
  simp [ticketSum]

lemma cumTickets_zero (ps : List Participant) : cumTickets ps 0 = 0 := rfl

lemma cumTickets_cons_succ (p : Participant) (rest : List Participant) (i : Nat) :
    cumTickets (p :: rest) (i + 1) = p.tickets_bought + cumTickets rest i := by
  simp [cumTickets, ticketSum]

lemma cumTickets_le (ps : List Participant) (k : Nat) : cumTickets ps k ≤ ticketSum ps := by
  unfold cumTickets
  conv_rhs => rw [← List.take_append_drop k ps]
  rw [ticketSum_append]
  omega

lemma cumTickets_succ_get (ps : List Participant) (i : Nat) (hi : i < ps.length) :
    cumTickets ps (i + 1) = cumTickets ps i + (ps.get ⟨i, hi⟩).tickets_bought := by
  unfold cumTickets
  rw [List.take_succ, ticketSum_append]
  congr 1
  rw [List.getElem?_eq_getElem hi]
  simp [ticketSum]

lemma selectWinnerAux_spec (ps : List Participant) :
    ∀ acc idx r, acc + ticketSum ps < U32 →
      selectWinnerAux r ps acc =
        (specCumulativeSelect r ps acc idx).map (fun z => z.2.wallet_address) := by
  induction ps with
  | nil => intro acc idx r h; rfl
  | cons p rest ih =>
    intro acc idx r h
    have hsum : ticketSum (p :: rest) = p.tickets_bought + ticketSum rest := by
      simp [ticketSum]
    rw [hsum] at h
    unfold selectWinnerAux specCumulativeSelect
    simp only []
    rw [Nat.mod_eq_of_lt (show acc + p.tickets_bought < U32 by omega)]
    by_cases hr : r ≤ acc + p.tickets_bought
    · rw [if_pos hr, if_pos hr]
      rfl
    · rw [if_neg hr, if_neg hr]
      exact ih (acc + p.tickets_bought) (idx + 1) r (by omega)

lemma specCumulativeSelect_eq_some (ps : List Participant) :
    ∀ acc idx r j q, acc < r →
      (specCumulativeSelect r ps acc idx = some (j, q) ↔
        ∃ i, ∃ hi : i < ps.length, j = idx + i ∧ q = ps.get ⟨i, hi⟩ ∧
          acc + cumTickets ps i < r ∧ r ≤ acc + cumTickets ps (i + 1)) := by
  induction ps with
  | nil =>
    intro acc idx r j q hacc
    simp [specCumulativeSelect]
  | cons p rest ih =>
    intro acc idx r j q hacc
    unfold specCumulativeSelect
    by_cases hr : r ≤ acc + p.tickets_bought
    · rw [if_pos hr]
      constructor
      · intro hsome
        have hj := Prod.mk.inj (Option.some.inj hsome)
        refine ⟨0, by simp, hj.1.symm, hj.2.symm, ?_, ?_⟩
        · rw [cumTickets_zero]
          omega
        · rw [cumTickets_cons_succ, cumTickets_zero]
          omega
      · rintro ⟨i, hi, hje, hqe, hlow, hhigh⟩
        cases i with
        | zero =>
          simp only [List.get] at hqe
          rw [hje, hqe]
          simp
        | succ i2 =>
          rw [cumTickets_cons_succ] at hlow
          have : acc + p.tickets_bought ≤ acc + (p.tickets_bought + cumTickets rest i2) := by
            omega
          omega
    · rw [if_neg hr]
      rw [ih (acc + p.tickets_bought) (idx + 1) r j q (by omega)]
      constructor
      · rintro ⟨i2, hi2, hje, hqe, hlow, hhigh⟩
        refine ⟨i2 + 1, by simpa using Nat.succ_lt_succ hi2, by omega, ?_, ?_, ?_⟩
        · rw [hqe]
          rfl
        · rw [cumTickets_cons_succ]
          omega
        · rw [cumTickets_cons_succ]
          omega
      · rintro ⟨i, hi, hje, hqe, hlow, hhigh⟩
        cases i with
        | zero =>
          rw [cumTickets_cons_succ, cumTickets_zero] at hhigh
          omega
        | succ i2 =>
          rw [cumTickets_cons_succ] at hlow hhigh
          refine ⟨i2, by simpa using Nat.lt_of_succ_lt_succ hi, by omega, ?_, by omega, by omega⟩
          rw [hqe]
          rfl

lemma selectWinnerAux_eq_wallet_iff (ps : List Participant)
    (hnw : ticketSum ps < U32)
    (hnd : (ps.map (fun p => p.wallet_address)).Nodup)
    (i : Nat) (hi : i < ps.length) (r : Nat) (hr1 : 1 ≤ r) :
    (selectWinnerAux r ps 0 = some ((ps.get ⟨i, hi⟩).wallet_address)) ↔
      (cumTickets ps i < r ∧ r ≤ cumTickets ps (i + 1)) := by
  rw [selectWinnerAux_spec ps 0 0 r (by omega)]
  constructor
  · intro h
    cases hsp : specCumulativeSelect r ps 0 0 with
    | none => rw [hsp] at h; exact absurd h (by simp)
    | some z =>
      rw [hsp] at h
      simp only [Option.map_some'] at h
      have hz := Option.some.inj h
      obtain ⟨i2, hi2, hje, hqe, hlow, hhigh⟩ :=
        (specCumulativeSelect_eq_some ps 0 0 r z.1 z.2 (by omega)).mp (by rw [hsp])
      rw [hqe] at hz
      have hieq : i2 = i := by
        have hmap : (ps.map (fun p => p.wallet_address)).get
            ⟨i2, by simpa using hi2⟩ =
            (ps.map (fun p => p.wallet_address)).get ⟨i, by simpa using hi⟩ := by
          simp only [List.get_eq_getElem, List.getElem_map]
          simp only [List.get_eq_getElem] at hz
          exact hz
        have := (List.Nodup.get_inj_iff hnd).mp hmap
        simpa using this
      subst hieq
      rw [Nat.zero_add] at hlow hhigh
      exact ⟨hlow, hhigh⟩
  · rintro ⟨hlow, hhigh⟩
    have hsp := (specCumulativeSelect_eq_some ps 0 0 r (0 + i) (ps.get ⟨i, hi⟩)
      (by omega)).mpr ⟨i, hi, rfl, rfl, by omega, by omega⟩
    rw [hsp]
    rfl

lemma selectWinner_count (ps : List Participant)
    (hnw : ticketSum ps < U32)
    (hnd : (ps.map (fun p => p.wallet_address)).Nodup)
    (i : Nat) (hi : i < ps.length) :
    ((Finset.Icc 1 (ticketSum ps)).filter
      (fun r => selectWinnerAux r ps 0 = some ((ps.get ⟨i, hi⟩).wallet_address))).card
    = (ps.get ⟨i, hi⟩).tickets_bought := by
  have hset : (Finset.Icc 1 (ticketSum ps)).filter
      (fun r => selectWinnerAux r ps 0 = some ((ps.get ⟨i, hi⟩).wallet_address))
      = Finset.Ioc (cumTickets ps i) (cumTickets ps (i + 1)) := by
    ext r
    simp only [Finset.mem_filter, Finset.mem_Icc, Finset.mem_Ioc]
    constructor
    · rintro ⟨⟨h1, h2⟩, h3⟩
      exact (selectWinnerAux_eq_wallet_iff ps hnw hnd i hi r h1).mp h3
    · rintro ⟨h1, h2⟩
      have hr1 : 1 ≤ r := by omega
      have hrT : r ≤ ticketSum ps := le_trans h2 (cumTickets_le ps (i + 1))
      exact ⟨⟨hr1, hrT⟩, (selectWinnerAux_eq_wallet_iff ps hnw hnd i hi r hr1).mpr ⟨h1, h2⟩⟩
  rw [hset, Nat.card_Ioc, cumTickets_succ_get ps i hi]
  omega


lemma addTickets_single (k t : Nat) (w : String) (hk : k + t < U32) :
    addTicketsToParticipants [{ wallet_address := w, tickets_bought := k }] w t
      = [{ wallet_address := w, tickets_bought := k + t }] := by
  unfold addTicketsToParticipants
  rw [if_pos rfl, Nat.mod_eq_of_lt hk]

lemma addTickets_two (a k t : Nat) (w1 w2 : String) (hne : w1 ≠ w2) (hk : k + t < U32) :
    addTicketsToParticipants
      [{ wallet_address := w1, tickets_bought := a },
       { wallet_address := w2, tickets_bought := k }] w2 t
      = [{ wallet_address := w1, tickets_bought := a },
         { wallet_address := w2, tickets_bought := k + t }] := by
  unfold addTicketsToParticipants
  rw [if_neg hne]
  unfold addTicketsToParticipants
  rw [if_pos rfl, Nat.mod_eq_of_lt hk]

lemma fam_buy_reach (st : Registry) (ps : List Participant) (w : String) (t : Nat)
    (hst : st "L1" = some (famL ps)) (h1 : t ≠ 0) (h2 : t ≤ 10000) (hw : w ≠ "")
    (hre : Reachable st) :
    Reachable (Registry.insert st "L1" (famL (addTicketsToParticipants ps w t))) ∧
    (Registry.insert st "L1" (famL (addTicketsToParticipants ps w t))) "L1"
      = some (famL (addTicketsToParticipants ps w t)) := by
  have heq : (buy_ticket st "L1" w t).2
      = Registry.insert st "L1" (famL (addTicketsToParticipants ps w t)) := by
    unfold buy_ticket
    rw [if_neg h1, if_neg (by omega), if_neg hw, hst]
    simp only []
    rw [if_neg (show ¬ ((famL ps).is_active = false) by simp [famL])]
    simp only []
    refine congrArg (Registry.insert st "L1") ?_
    simp [famL]
  refine ⟨?_, ?_⟩
  · have := Reachable.buy st "L1" w t hre
    rw [heq] at this
    exact this
  · unfold Registry.insert
    rw [if_pos rfl]

lemma fam_reach_single (n : Nat) : 10000 * (n + 1) < U32 →
    ∃ st, Reachable st ∧
      st "L1" = some (famL [{ wallet_address := "w1", tickets_bought := 10000 * (n + 1) }]) := by
  induction n with
  | zero =>
    intro hb
    obtain ⟨hre, hst⟩ := fam_buy_reach wfSt0 [] "w1" 10000 (by decide) (by decide)
      (by decide) (by decide)
      (Reachable.create Registry.emptyReg "L1" "alice" 0 "t0" none Reachable.emptyReg)
    refine ⟨_, hre, ?_⟩
    rw [show 10000 * (0 + 1) = 10000 by norm_num]
    exact hst
  | succ n ih =>
    intro hb
    obtain ⟨st, hre, hst⟩ := ih (by omega)
    obtain ⟨hre2, hst2⟩ := fam_buy_reach st
      [{ wallet_address := "w1", tickets_bought := 10000 * (n + 1) }] "w1" 10000 hst
      (by decide) (by decide) (by decide) hre
    have hadd : addTicketsToParticipants
        [{ wallet_address := "w1", tickets_bought := 10000 * (n + 1) }] "w1" 10000
        = [{ wallet_address := "w1", tickets_bought := 10000 * (n + 1 + 1) }] := by
      rw [addTickets_single (10000 * (n + 1)) 10000 "w1" (by omega)]
      rw [show 10000 * (n + 1) + 10000 = 10000 * (n + 1 + 1) by ring]
    rw [hadd] at hre2 hst2
    exact ⟨_, hre2, hst2⟩

lemma fam_reach_w1_full :
    ∃ st, Reachable st ∧
      st "L1" = some (famL [{ wallet_address := "w1", tickets_bought := 2147483648 }]) := by
  obtain ⟨st, hre, hst⟩ := fam_reach_single 214747 (by norm_num [U32])
  rw [show 10000 * (214747 + 1) = 2147480000 by norm_num] at hst
  obtain ⟨hre2, hst2⟩ := fam_buy_reach st
    [{ wallet_address := "w1", tickets_bought := 2147480000 }] "w1" 3648 hst
    (by decide) (by decide) (by decide) hre
  rw [addTickets_single 2147480000 3648 "w1" (by norm_num [U32])] at hst2
  exact ⟨_, hre2, hst2⟩

lemma fam_reach_two (n : Nat) : 10000 * (n + 1) < U32 →
    ∃ st, Reachable st ∧
      st "L1" = some (famL
        [{ wallet_address := "w1", tickets_bought := 2147483648 },
         { wallet_address := "w2", tickets_bought := 10000 * (n + 1) }]) := by
  induction n with
  | zero =>
    intro hb
    obtain ⟨st, hre, hst⟩ := fam_reach_w1_full
    obtain ⟨hre2, hst2⟩ := fam_buy_reach st
      [{ wallet_address := "w1", tickets_bought := 2147483648 }] "w2" 10000 hst
      (by decide) (by decide) (by decide) hre
    rw [addTickets_append _ "w2" 10000 (by decide)] at hst2
    refine ⟨_, hre2, ?_⟩
    rw [show 10000 * (0 + 1) = 10000 by norm_num]
    exact hst2
  | succ n ih =>
    intro hb
    obtain ⟨st, hre, hst⟩ := ih (by omega)
    obtain ⟨hre2, hst2⟩ := fam_buy_reach st
      [{ wallet_address := "w1", tickets_bought := 2147483648 },
       { wallet_address := "w2", tickets_bought := 10000 * (n + 1) }] "w2" 10000 hst
      (by decide) (by decide) (by decide) hre
    have hadd : addTicketsToParticipants
        [{ wallet_address := "w1", tickets_bought := 2147483648 },
         { wallet_address := "w2", tickets_bought := 10000 * (n + 1) }] "w2" 10000
        = [{ wallet_address := "w1", tickets_bought := 2147483648 },
           { wallet_address := "w2", tickets_bought := 10000 * (n + 1 + 1) }] := by
      rw [addTickets_two 2147483648 (10000 * (n + 1)) 10000 "w1" "w2" (by decide) (by omega)]
      rw [show 10000 * (n + 1) + 10000 = 10000 * (n + 1 + 1) by ring]
    rw [hadd] at hre2 hst2
    exact ⟨_, hre2, hst2⟩

lemma wrap_reach : ∃ st, Reachable st ∧ st "L1" = some wrapL := by
  obtain ⟨st, hre, hst⟩ := fam_reach_two 214747 (by norm_num [U32])
  rw [show 10000 * (214747 + 1) = 2147480000 by norm_num] at hst
  obtain ⟨hre2, hst2⟩ := fam_buy_reach st
    [{ wallet_address := "w1", tickets_bought := 2147483648 },
     { wallet_address := "w2", tickets_bought := 2147480000 }] "w2" 3648 hst
    (by decide) (by decide) (by decide) hre
  rw [addTickets_two 2147483648 2147480000 3648 "w1" "w2" (by decide) (by norm_num [U32])]
    at hst2
  exact ⟨_, hre2, hst2⟩


/-- C1: the winning ticket number r of pick_winner is computed as
    (next_u32() % total) + 1; for total = 3 (which does not divide 2 to the
    32) the value r = 1 has 1431655766 generator preimages while r = 2 and
    r = 3 have 1431655765 each, so r is not uniformly distributed and the
    map from the 32-bit generator output to r has unequal preimage counts:
    the selection step has modulo bias, contrary to the claim. -/
theorem c1_modulo_bias :
    preimageCount 3 1 = 1431655766 ∧ preimageCount 3 2 = 1431655765 ∧
    preimageCount 3 3 = 1431655765 ∧ preimageCount 3 1 ≠ preimageCount 3 2 := by
  have e1 : preimageCount 3 1 = 1431655766 := by
    rw [preimageCount_three 1 (by omega), countMod_eq 3 0 (by omega) (by omega) U32]
    norm_num [U32]
  have e2 : preimageCount 3 2 = 1431655765 := by
    rw [preimageCount_three 2 (by omega), countMod_eq 3 1 (by omega) (by omega) U32]
    norm_num [U32]
  have e3 : preimageCount 3 3 = 1431655765 := by
    rw [preimageCount_three 3 (by omega), countMod_eq 3 2 (by omega) (by omega) U32]
    norm_num [U32]
  exact ⟨e1, e2, e3, by omega⟩

/-- C3: buying 2 tickets at price 2 to the 63 on an active lottery succeeds
    and leaves prize_pool = 0 (the u64 product wraps modulo 2 to the 64);
    there is no OverflowError path in buy_ticket, contrary to the claim. -/
theorem c3_overflow_wraps :
    ovSt1 "L1" = some ovL1
    ∧ ovL1.is_active = true
    ∧ ovL1.ticket_price * 2 = U64
    ∧ (buy_ticket ovSt1 "L1" "w" 2).1 = .ok ovL2
    ∧ ovL2.prize_pool = 0 := by
  exact ⟨by decide, rfl, by decide, rfl, rfl⟩

/-- C4 counterexample: after creating a lottery priced 2 to the 63 and buying
    2 tickets, the reachable registry holds a lottery with prize_pool = 0
    while ticket_price times the ticket sum is 2 to the 64, so the exact
    (unbounded-integer) prize-pool invariant claimed for every reachable
    lottery is false. -/
theorem c4_counterexample :
    ¬ (∀ st, Reachable st → ∀ idv l, st idv = some l →
        l.prize_pool = l.ticket_price * ticketSum l.participants) := by
  intro hclaim
  have hreach : Reachable (buy_ticket ovSt1 "L1" "w" 2).2 :=
    Reachable.buy ovSt1 "L1" "w" 2
      (Reachable.create Registry.emptyReg "L1" "alice" 9223372036854775808 "t0" none
        Reachable.emptyReg)
  have heq : (buy_ticket ovSt1 "L1" "w" 2).2 "L1" = some ovL2 := by decide
  have hc := hclaim _ hreach "L1" ovL2 heq
  exact absurd hc (by decide)

/-- C4 amended: for every lottery reachable by an operation sequence in which
    every purchase keeps the arithmetic in range (no u64 prize-pool overflow
    and no u32 ticket-counter overflow), prize_pool equals ticket_price times
    the exact sum of tickets_bought over its participants. -/
theorem c4_amended_prize_pool_invariant (st : Registry) (h : ReachableNoOv st)
    (idv : String) (l : Lottery) (hl : st idv = some l) :
    l.prize_pool = l.ticket_price * ticketSum l.participants :=
  reachableNoOv_pool st h idv l hl

theorem c4_amended_prize_pool_invariant_w :
    wL2.prize_pool = wL2.ticket_price * ticketSum wL2.participants := by
  have hin : buyInRange wSt1 "L1" "bob" 5 := by
    intro l hl
    have h2 : wSt1 "L1" = some wL1 := by decide
    rw [h2] at hl
    have h3 := Option.some.inj hl
    subst h3
    refine ⟨by decide, ?_⟩
    intro p hp
    exact absurd hp (by simp [wL1])
  have hreach : ReachableNoOv wSt2 :=
    ReachableNoOv.buy wSt1 "L1" "bob" 5
      (ReachableNoOv.create Registry.emptyReg "L1" "alice" 10 "t0" none
        ReachableNoOv.emptyReg)
      hin
  exact c4_amended_prize_pool_invariant wSt2 hreach "L1" wL2 (by decide)

/-- C5: in every reachable registry a lottery has winner set exactly when
    is_active is false; a freshly created lottery has no winner and is
    active; a successful pick_winner sets is_active to false and assigns the
    winner to the wallet address of one of the participants. -/
theorem c5_winner_iff_inactive :
    (∀ st, Reachable st → ∀ idv l, st idv = some l →
        (l.winner.isSome = true ↔ l.is_active = false))
    ∧ (∀ st idv admin price ca et,
        (create_lottery st idv admin price ca et).1.winner = none ∧
        (create_lottery st idv admin price ca et).1.is_active = true)
    ∧ (∀ st idv a x l', (pick_winner st idv a x).1 = .ok l' →
        l'.is_active = false ∧
        ∃ p, p ∈ l'.participants ∧ l'.winner = some p.wallet_address) := by
  refine ⟨reachable_winner_iff, fun st idv admin price ca et => ⟨rfl, rfl⟩, ?_⟩
  intro st idv a x l' h
  obtain ⟨lottery, w, hst, hadm, hact, hne, htot, hsel, hl2, hsnd⟩ :=
    draw_ok_elim st idv a x l' h
  obtain ⟨p, hp, hpw⟩ := selectWinnerAux_mem lottery.participants 0
    (winningTicketNumber x (totalTickets lottery.participants)) w hsel
  subst hl2
  exact ⟨rfl, p, hp, by rw [hpw]⟩

theorem c5_winner_iff_inactive_w :
    (wL3.winner.isSome = true ↔ wL3.is_active = false) :=
  c5_winner_iff_inactive.1 wSt3
    (Reachable.draw wSt2 "L1" "alice" 0
      (Reachable.buy wSt1 "L1" "bob" 5
        (Reachable.create Registry.emptyReg "L1" "alice" 10 "t0" none
          Reachable.emptyReg)))
    "L1" wL3 (by decide)

/-- C2 counterexample: after a successful draw (alice draws, bob wins), a
    subsequent pick_winner by a different caller fails with Forbidden, not
    InactiveLottery, because pick_winner checks the admin before is_active;
    and a subsequent buy_ticket with ticket count 0 fails with a
    ValidationError, not InactiveLottery.  This falsifies the claim that
    every subsequent call fails with InactiveLottery regardless of caller. -/
theorem c2_counterexample :
    (pick_winner wSt2 "L1" "alice" 0).1 = .ok wL3
    ∧ (pick_winner wSt3 "L1" "mallory" 0).1 = .error .forbidden
    ∧ (buy_ticket wSt3 "L1" "bob" 0).1 =
        .error (.validationError "Must buy at least 1 ticket")
    ∧ ApiError.forbidden ≠ ApiError.inactiveLottery := by
  exact ⟨rfl, rfl, rfl, by decide⟩

/-- C2 amended: once pick_winner succeeds on a lottery, every subsequent
    buy_ticket on it that passes input validation fails with InactiveLottery,
    and every subsequent pick_winner on it fails - with InactiveLottery when
    the requesting admin matches the lottery admin and with Forbidden
    otherwise; in all cases the registry is left unchanged. -/
theorem c2_amended_irrevocability (st : Registry) (idv a : String) (x : Nat) (l' : Lottery)
    (h : (pick_winner st idv a x).1 = .ok l') :
    (∀ w t, t ≠ 0 → t ≤ 10000 → w ≠ "" →
        (buy_ticket (pick_winner st idv a x).2 idv w t).1 = .error .inactiveLottery ∧
        (buy_ticket (pick_winner st idv a x).2 idv w t).2 = (pick_winner st idv a x).2)
    ∧ (∀ a2 x2,
        (pick_winner (pick_winner st idv a x).2 idv a2 x2).1 =
          .error (if l'.admin = a2 then ApiError.inactiveLottery else ApiError.forbidden) ∧
        (pick_winner (pick_winner st idv a x).2 idv a2 x2).2 = (pick_winner st idv a x).2) := by
  obtain ⟨lottery, w0, hst, hadm, hact, hne, htot, hsel, hl2, hsnd⟩ :=
    draw_ok_elim st idv a x l' h
  have hlook : (pick_winner st idv a x).2 idv = some l' := by
    rw [hsnd]
    unfold Registry.insert
    rw [if_pos rfl]
  have hinact : l'.is_active = false := by rw [hl2]
  constructor
  · intro w t ht0 ht1 hw
    unfold buy_ticket
    rw [if_neg ht0, if_neg (by omega), if_neg hw, hlook]
    simp only []
    rw [if_pos hinact]
    exact ⟨rfl, rfl⟩
  · intro a2 x2
    rw [hsnd]
    unfold pick_winner
    have hlook2 : Registry.insert st idv l' idv = some l' := by
      unfold Registry.insert
      rw [if_pos rfl]
    rw [hlook2]
    simp only []
    by_cases ha : l'.admin = a2
    · rw [if_neg (fun hcon => hcon ha), if_pos hinact, if_pos ha]
      exact ⟨rfl, rfl⟩
    · rw [if_pos ha, if_neg ha]
      exact ⟨rfl, rfl⟩

theorem c2_amended_irrevocability_w :
    (buy_ticket wSt3 "L1" "carol" 1).1 = .error .inactiveLottery ∧
    (pick_winner wSt3 "L1" "mallory" 7).1 = .error .forbidden := by
  have h := c2_amended_irrevocability wSt2 "L1" "alice" 0 wL3 rfl
  refine ⟨(h.1 "carol" 1 (by decide) (by decide) (by decide)).1, ?_⟩
  have h2 := (h.2 "mallory" 7).1
  rw [if_neg (show ¬ (wL3.admin = "mallory") by decide)] at h2
  exact h2

/-- C6 counterexample: on the list [a: 1 ticket, b: 4294967295 tickets,
    c: 3 tickets] the exact total is 4294967299 and for winning number r = 2
    the first participant whose exact cumulative count reaches 2 is b, but
    the selection loop's u32 cumulative count wraps to 0 at b, so the code
    selects c.  The claimed equality with cumulative-sum selection therefore
    fails for lists whose cumulative counts exceed the u32 range. -/
theorem c6_counterexample :
    bigPs ≠ [] ∧ 0 < ticketSum bigPs ∧ 1 ≤ 2 ∧ 2 ≤ ticketSum bigPs ∧
    (specCumulativeSelect 2 bigPs 0 0).map (fun z => z.2.wallet_address) = some "b" ∧
    selectWinnerAux 2 bigPs 0 = some "c" ∧ ("b" : String) ≠ "c" := by
  exact ⟨by decide, by decide, by decide, by decide, rfl, rfl, by decide⟩

/-- C6 amended: for a non-empty participant list with distinct wallets whose
    exact ticket total t is positive and below 2 to the 32 (so the u32
    cumulative count cannot wrap), and any winning number r with
    1 ≤ r ≤ t, the selection loop returns exactly the wallet of the first
    participant whose cumulative ticket count is at least r (ties at a
    boundary therefore go to the earlier entrant), and each participant is
    selected for exactly tickets_bought of the t possible values of r. -/
theorem c6_amended_selection (ps : List Participant) (_hne : ps ≠ [])
    (hnw : ticketSum ps < U32)
    (hnd : (ps.map (fun p => p.wallet_address)).Nodup) :
    (∀ r, 1 ≤ r → r ≤ ticketSum ps →
        selectWinnerAux r ps 0 =
          (specCumulativeSelect r ps 0 0).map (fun z => z.2.wallet_address))
    ∧ (∀ i, ∀ hi : i < ps.length,
        ((Finset.Icc 1 (ticketSum ps)).filter
          (fun r => selectWinnerAux r ps 0 = some ((ps.get ⟨i, hi⟩).wallet_address))).card
        = (ps.get ⟨i, hi⟩).tickets_bought) :=
  ⟨fun r h1 h2 => selectWinnerAux_spec ps 0 0 r (by omega),
   fun i hi => selectWinner_count ps hnw hnd i hi⟩

theorem c6_amended_selection_w :
    ((Finset.Icc 1 (ticketSum wPs)).filter
      (fun r => selectWinnerAux r wPs 0 = some ((wPs.get ⟨0, by decide⟩).wallet_address))).card
    = (wPs.get ⟨0, by decide⟩).tickets_bought :=
  (c6_amended_selection wPs (by decide) (by decide) (by decide)).2 0 (by decide)

/-- C7 counterexample: at ticket price 2 to the 63, buying 2 tickets succeeds
    but the prize pool does not increase by ticket_price times the count - the
    u64 sum wraps and the pool stays 0 - falsifying the exact-increase part of
    the claim. -/
theorem c7_counterexample :
    ovSt1 "L1" = some ovL1
    ∧ (buy_ticket ovSt1 "L1" "w" 2).1 = .ok ovL2
    ∧ ovL2.prize_pool ≠ ovL1.prize_pool + ovL1.ticket_price * 2 := by
  exact ⟨by decide, rfl, by decide⟩

/-- C7 amended: a successful buy_ticket on a lottery with distinct wallets
    sets prize_pool to (prize_pool + ticket_price * count) mod 2 to the 64
    (the exact increase whenever that sum is in u64 range); if the wallet
    already has an entry, exactly that entry's tickets_bought becomes its old
    value plus the count reduced mod 2 to the 32 and no entry is added or
    reordered; otherwise exactly one new entry with the count is appended at
    the end; wallet uniqueness is preserved. -/
theorem c7_amended_buy_effects (st : Registry) (idv w : String) (t : Nat) (l l' : Lottery)
    (hpre : st idv = some l)
    (hnd : (l.participants.map (fun p => p.wallet_address)).Nodup)
    (h : (buy_ticket st idv w t).1 = .ok l') :
    l'.prize_pool = (l.prize_pool + l.ticket_price * t % U64) % U64
    ∧ (l.prize_pool + l.ticket_price * t < U64 →
        l'.prize_pool = l.prize_pool + l.ticket_price * t)
    ∧ ((∃ p ∈ l.participants, p.wallet_address = w) →
        l'.participants = l.participants.map (fun p => if p.wallet_address = w then
          { p with tickets_bought := (p.tickets_bought + t) % U32 } else p))
    ∧ ((∀ p ∈ l.participants, p.wallet_address ≠ w) →
        l'.participants = l.participants ++ [{ wallet_address := w, tickets_bought := t }])
    ∧ (l'.participants.map (fun p => p.wallet_address)).Nodup := by
  obtain ⟨ht0, ht1, hw, lottery, hst, hact, hl2, hsnd⟩ := buy_ok_elim st idv w t l' h
  rw [hpre] at hst
  have hleq := Option.some.inj hst
  subst hleq
  refine ⟨by rw [hl2], ?_, ?_, ?_, ?_⟩
  · intro hlt
    rw [hl2]
    simp only []
    rw [Nat.mod_eq_of_lt (show l.ticket_price * t < U64 by omega), Nat.mod_eq_of_lt hlt]
  · intro hex
    rw [hl2]
    exact addTickets_map l.participants w t hnd hex
  · intro hall
    rw [hl2]
    exact addTickets_append l.participants w t hall
  · rw [hl2]
    exact addTickets_nodup l.participants w t hnd

theorem c7_amended_buy_effects_w :
    wL2.prize_pool = wL1.prize_pool + wL1.ticket_price * 5 ∧
    wL2.participants = wL1.participants ++ [{ wallet_address := "bob", tickets_bought := 5 }] := by
  have h := c7_amended_buy_effects wSt1 "L1" "bob" 5 wL1 wL2 (by decide) (by decide) rfl
  exact ⟨h.2.1 (by decide), h.2.2.2.1 (by decide)⟩

/-- C8 amended: pick_winner checks, in order, lookup (NotFound), admin
    (Forbidden), is_active (InactiveLottery), empty participants
    (NoParticipants), and the u32 ticket total computed by the code
    (NoTicketsSold when that 32-bit sum is zero); otherwise it succeeds;
    every failure leaves the registry unchanged. -/
theorem c8_amended_draw_cascade (st : Registry) (idv a : String) (x : Nat) :
    (st idv = none →
        (pick_winner st idv a x).1 = .error .notFound ∧ (pick_winner st idv a x).2 = st)
    ∧ (∀ l, st idv = some l → l.admin ≠ a →
        (pick_winner st idv a x).1 = .error .forbidden ∧ (pick_winner st idv a x).2 = st)
    ∧ (∀ l, st idv = some l → l.admin = a → l.is_active = false →
        (pick_winner st idv a x).1 = .error .inactiveLottery ∧ (pick_winner st idv a x).2 = st)
    ∧ (∀ l, st idv = some l → l.admin = a → l.is_active = true → l.participants = [] →
        (pick_winner st idv a x).1 = .error .noParticipants ∧ (pick_winner st idv a x).2 = st)
    ∧ (∀ l, st idv = some l → l.admin = a → l.is_active = true → l.participants ≠ [] →
        totalTickets l.participants = 0 →
        (pick_winner st idv a x).1 = .error .noTicketsSold ∧ (pick_winner st idv a x).2 = st)
    ∧ (∀ l, st idv = some l → l.admin = a → l.is_active = true → l.participants ≠ [] →
        totalTickets l.participants ≠ 0 →
        ∃ l', (pick_winner st idv a x).1 = .ok l') := by
  refine ⟨?_, ?_, ?_, ?_, ?_, ?_⟩
  · intro h0
    unfold pick_winner
    rw [h0]
    exact ⟨rfl, rfl⟩
  · intro l hl hadm
    unfold pick_winner
    rw [hl]
    simp only []
    rw [if_pos hadm]
    exact ⟨rfl, rfl⟩
  · intro l hl hadm hact
    unfold pick_winner
    rw [hl]
    simp only []
    rw [if_neg (fun hcon => hcon hadm), if_pos hact]
    exact ⟨rfl, rfl⟩
  · intro l hl hadm hact hemp
    unfold pick_winner
    rw [hl]
    simp only []
    rw [if_neg (fun hcon => hcon hadm), if_neg (by rw [hact]; decide),
      if_pos (by rw [hemp]; rfl)]
    exact ⟨rfl, rfl⟩
  · intro l hl hadm hact hne htot
    have hempf : l.participants.isEmpty = false := by
      cases hq : l.participants with
      | nil => exact absurd hq hne
      | cons p rest => rfl
    unfold pick_winner
    rw [hl]
    simp only []
    rw [if_neg (fun hcon => hcon hadm), if_neg (by rw [hact]; decide),
      if_neg (by rw [hempf]; decide), if_pos htot]
    exact ⟨rfl, rfl⟩
  · intro l hl hadm hact hne htot
    have hempf : l.participants.isEmpty = false := by
      cases hq : l.participants with
      | nil => exact absurd hq hne
      | cons p rest => rfl
    unfold pick_winner
    rw [hl]
    simp only []
    rw [if_neg (fun hcon => hcon hadm), if_neg (by rw [hact]; decide),
      if_neg (by rw [hempf]; decide), if_neg htot]
    exact ⟨_, rfl⟩

theorem c8_amended_draw_cascade_w :
    (pick_winner wSt1 "L1" "mallory" 0).1 = .error .forbidden ∧
    (pick_winner Registry.emptyReg "L1" "alice" 0).1 = .error .notFound := by
  refine ⟨((c8_amended_draw_cascade wSt1 "L1" "mallory" 0).2.1 wL1 (by decide) (by decide)).1,
    ((c8_amended_draw_cascade Registry.emptyReg "L1" "alice" 0).1 rfl).1⟩

/-- C8 counterexample: on a lottery whose two participants hold 2147483648
    tickets each (exact total 2 to the 32, nonzero) - a state reachable from
    the empty registry by valid operations - an admin draw on the active
    lottery does not succeed: the u32 total wraps to zero and pick_winner
    fails with NoTicketsSold, falsifying the claimed cascade in which the
    draw succeeds whenever the tickets sum is nonzero. -/
theorem c8_counterexample :
    (∃ st, Reachable st ∧ st "L1" = some wrapL)
    ∧ wrapSt "L1" = some wrapL
    ∧ wrapL.admin = "alice" ∧ wrapL.is_active = true ∧ wrapL.participants ≠ []
    ∧ ticketSum wrapL.participants = 4294967296
    ∧ (∀ l', (pick_winner wrapSt "L1" "alice" 0).1 ≠ .ok l')
    ∧ (pick_winner wrapSt "L1" "alice" 0).1 = .error .noTicketsSold := by
  refine ⟨wrap_reach, by decide, rfl, rfl, by decide, by decide, ?_, rfl⟩
  intro l' hcon
  exact absurd (show (Except.error ApiError.noTicketsSold : Except ApiError Lottery)
    = .ok l' from hcon) (by simp)

/-- C9: buy_ticket validates before touching any state: ticket count 0, a
    count above 10000, and an empty wallet each return the corresponding
    ValidationError with the registry unchanged, while counts 1 and 10000
    with a non-empty wallet never produce a ValidationError. -/
theorem c9_buy_validation (st : Registry) (idv w : String) (t : Nat) :
    (t = 0 →
        (buy_ticket st idv w t).1 = .error (.validationError "Must buy at least 1 ticket") ∧
        (buy_ticket st idv w t).2 = st)
    ∧ (t > 10000 →
        (buy_ticket st idv w t).1 =
          .error (.validationError "Cannot buy more than 10,000 tickets at once") ∧
        (buy_ticket st idv w t).2 = st)
    ∧ (t ≠ 0 → t ≤ 10000 → w = "" →
        (buy_ticket st idv w t).1 = .error (.validationError "Wallet address is required") ∧
        (buy_ticket st idv w t).2 = st)
    ∧ ((t = 1 ∨ t = 10000) → w ≠ "" →
        ∀ msg, (buy_ticket st idv w t).1 ≠ .error (.validationError msg)) := by
  refine ⟨?_, ?_, ?_, ?_⟩
  · intro h0
    unfold buy_ticket
    rw [if_pos h0]
    exact ⟨rfl, rfl⟩
  · intro h1
    unfold buy_ticket
    rw [if_neg (by omega), if_pos h1]
    exact ⟨rfl, rfl⟩
  · intro h0 h1 hw
    unfold buy_ticket
    rw [if_neg h0, if_neg (by omega), if_pos hw]
    exact ⟨rfl, rfl⟩
  · intro hb hw msg
    have ht0 : ¬ (t = 0) := by rcases hb with rfl | rfl <;> omega
    have ht1 : ¬ (t > 10000) := by rcases hb with rfl | rfl <;> omega
    unfold buy_ticket
    rw [if_neg ht0, if_neg ht1, if_neg hw]
    cases hst : st idv with
    | none => simp
    | some l =>
      simp only []
      by_cases hact : l.is_active = false
      · rw [if_pos hact]
        simp
      · rw [if_neg hact]
        simp

theorem c9_buy_validation_w :
    (buy_ticket Registry.emptyReg "L1" "bob" 0).1
      = .error (.validationError "Must buy at least 1 ticket")
    ∧ (buy_ticket Registry.emptyReg "L1" "bob" 10001).1
      = .error (.validationError "Cannot buy more than 10,000 tickets at once")
    ∧ ∀ msg, (buy_ticket Registry.emptyReg "L1" "bob" 1).1 ≠ .error (.validationError msg) := by
  refine ⟨((c9_buy_validation Registry.emptyReg "L1" "bob" 0).1 rfl).1,
    ((c9_buy_validation Registry.emptyReg "L1" "bob" 10001).2.1 (by omega)).1,
    (c9_buy_validation Registry.emptyReg "L1" "bob" 1).2.2.2 (Or.inl rfl) (by decide)⟩

/-- C10: a successful pick_winner changes only the winner and is_active
    fields of the addressed lottery - id, admin, ticket_price, participants,
    prize_pool, created_at and end_time are unchanged - and every other key
    of the registry is unchanged. -/
theorem c10_draw_frame (st : Registry) (idv a : String) (x : Nat) (l l' : Lottery)
    (hl : st idv = some l) (h : (pick_winner st idv a x).1 = .ok l') :
    l'.id = l.id ∧ l'.admin = l.admin ∧ l'.ticket_price = l.ticket_price ∧
    l'.participants = l.participants ∧ l'.prize_pool = l.prize_pool ∧
    l'.created_at = l.created_at ∧ l'.end_time = l.end_time ∧
    (pick_winner st idv a x).2 idv = some l' ∧
    ∀ k, k ≠ idv → (pick_winner st idv a x).2 k = st k := by
  obtain ⟨lottery, w0, hst, hadm, hact, hne, htot, hsel, hl2, hsnd⟩ :=
    draw_ok_elim st idv a x l' h
  rw [hl] at hst
  have hleq := Option.some.inj hst
  subst hleq
  subst hl2
  refine ⟨rfl, rfl, rfl, rfl, rfl, rfl, rfl, ?_, ?_⟩
  · rw [hsnd]
    unfold Registry.insert
    rw [if_pos rfl]
  · intro k hk
    rw [hsnd]
    unfold Registry.insert
    rw [if_neg hk]

theorem c10_draw_frame_w :
    wL3.participants = wL2.participants ∧ wL3.prize_pool = wL2.prize_pool ∧
    (pick_winner wSt2 "L1" "alice" 0).2 "L2" = wSt2 "L2" := by
  have h := c10_draw_frame wSt2 "L1" "alice" 0 wL2 wL3 (by decide) rfl
  exact ⟨h.2.2.2.1, h.2.2.2.2.1, h.2.2.2.2.2.2.2.2 "L2" (by decide)⟩
